import Mathlib

/-!
Verification development for the m4b-to-oga converter (src/m4b2ogg.py).

The embedding below models the chapter extraction loop, the book_info tag
fallback chains, the cue timing arithmetic of create_cue_sheet, the cue file
rendering done in the main block, and the cue merge policy (the scan of an
existing cue file deciding between overwriting the canonical .cue path and
writing to the _oga.cue side path).

Conventions of the embedding:
- Python dictionaries of format tags are association lists with distinct keys,
  in insertion order, so that list(tags.keys()) order is the list order.
- Python file contents are Lean Strings; iterating over the lines of an open
  file is split_lines, which keeps the trailing newline of every line except
  a final unterminated one, as Python text-mode iteration does.
- datetime.timedelta arithmetic and float total_seconds() are embedded as
  exact natural-number arithmetic; the claims under verification quantify over
  non-negative durations, on which domain the Python computation agrees with
  exact integer arithmetic.
- a dictionary access that can raise KeyError is modelled with Option or with
  the ProbeField type below; an uncaught exception is an Except.error result.
-/

/-- Timestamp arithmetic of create_cue_sheet (lines 122-124 of the source):
minutes, seconds and frames computed from the accumulated time t (in time-base
units, the value of accumulated_time.total_seconds()) and the track's own
time base tb.  int() truncation of the non-negative float quotients is
natural-number floor division; the fractional-part-times-75 expression for
frames equals (t mod (tb*60) mod tb) * 75 / tb. -/
def cue_timestamp (t tb : Nat) : Nat × Nat × Nat :=
  (t / (tb * 60), t % (tb * 60) / tb, t % (tb * 60) % tb * 75 / tb)

/-- Timestamps emitted by the create_cue_sheet loop: one per track, the
accumulator advancing by the track's duration after each track
(line 129 of the source). -/
def cue_timestamps : List Nat → List Nat → Nat → List (Nat × Nat × Nat)
  | dur :: durs, tb :: tbs, t => cue_timestamp t tb :: cue_timestamps durs tbs (t + dur)
  | _, _, _ => []

/-- Lexicographic order on (minutes, seconds, frames) triples. -/
def ts_le (a b : Nat × Nat × Nat) : Prop :=
  a.1 < b.1 ∨ (a.1 = b.1 ∧ (a.2.1 < b.2.1 ∨ (a.2.1 = b.2.1 ∧ a.2.2 ≤ b.2.2)))

instance : DecidableRel ts_le := fun a b => by
  unfold ts_le
  infer_instance

/-- Python format specifier 02: left zero-pad a number to width two. -/
def pad2 (n : Nat) : String :=
  if n < 10 then "0" ++ toString n else toString n

/-- One cue sheet entry as formatted by create_cue_sheet (lines 126-128):
a triple-quoted template with no trailing newline after the INDEX line. -/
def cue_sheet_entry (track_index : Nat) (name : String) (ts : Nat × Nat × Nat) : String :=
  "  TRACK " ++ pad2 track_index ++ " AUDIO\n    TITLE \"" ++ name ++
    "\"\n    INDEX 01 " ++ pad2 ts.1 ++ ":" ++ pad2 ts.2.1 ++ ":" ++ pad2 ts.2.2

/-- The enumerated loop of create_cue_sheet over zip(names, track_times,
timebases): track_index starts at 0, accumulated_time at start_time. -/
def create_cue_sheet_aux : Nat → Nat → List (String × Nat × Nat) → List String
  | _, _, [] => []
  | idx, t, (name, dur, tb) :: rest =>
      cue_sheet_entry idx name (cue_timestamp t tb) :: create_cue_sheet_aux (idx + 1) (t + dur) rest

/-- create_cue_sheet (lines 105-130): yields the formatted entries; zip
truncates to the shortest of the three lists. -/
def create_cue_sheet (names : List String) (track_times timebases : List Nat)
    (start_time : Nat) : List String :=
  create_cue_sheet_aux 0 start_time (names.zip (track_times.zip timebases))

/-- Python str.upper on the ASCII strings used as tag keys. -/
def py_upper (s : String) : String :=
  String.mk (s.data.map Char.toUpper)

/-- tags[keys[keys_upper.index(K)]]: the value of the first key whose
upper-cased form is K, or none when keys_upper.index raises ValueError. -/
def find_key_upper (tags : List (String × String)) (k : String) : Option String :=
  (tags.find? (fun p => py_upper p.fst = k)).map Prod.snd

/-- tags[K]: exact-key dictionary access; none models a KeyError. -/
def lookup_exact (tags : List (String × String)) (k : String) : Option String :=
  (tags.find? (fun p => p.fst = k)).map Prod.snd

/-- Title half of book_info (lines 96-102): ALBUM tag, else TITLE tag, else
the stem of the input file name. -/
def book_title (tags : List (String × String)) (file_stem : String) : String :=
  match find_key_upper tags "ALBUM" with
  | some t => t
  | none =>
    match find_key_upper tags "TITLE" with
    | some t => t
    | none => file_stem

/-- book_info (lines 68-103).  The performer chain tries the ARTIST key, then
the PERFORMER key (both case-insensitively, each miss raising ValueError from
list.index, which IS caught), then the literal access tags['performer'].
That final access raises KeyError when the key is absent, and the enclosing
except clause only catches ValueError, so the KeyError escapes: this is the
Except.error result.  The title chain runs only after a successful performer
lookup, matching Python statement order. -/
def book_info (tags : List (String × String)) (file_stem : String) :
    Except String (String × String) :=
  match find_key_upper tags "ARTIST" with
  | some performer => .ok (performer, book_title tags file_stem)
  | none =>
    match find_key_upper tags "PERFORMER" with
    | some performer => .ok (performer, book_title tags file_stem)
    | none =>
      match lookup_exact tags "performer" with
      | some performer => .ok (performer, book_title tags file_stem)
      | none => .error "KeyError: performer"

/-- A numeric field of a probed chapter record, as the extraction loop sees
it: the key can be absent (dictionary access raises KeyError), present but
not parseable by int() (raises ValueError), or parseable with value val. -/
inductive ProbeField (α : Type) where
  | missing : ProbeField α
  | malformed : ProbeField α
  | val : α → ProbeField α
deriving DecidableEq

/-- One chapter record returned by the probe, with the fields read by the
extraction loop (lines 268-280): tags.title (none models a KeyError on
either the tags or the title key), start, end, and the denominator of
time_base (the int() of the text after the slash). -/
structure RawChapter where
  title : Option String
  start : ProbeField Int
  end_ : ProbeField Int
  time_base_den : ProbeField Nat
deriving DecidableEq

/-- The four accumulator lists of the main block (lines 234-237). -/
structure ExtractState where
  names : List String
  performers : List String
  track_times : List Int
  timebases : List Nat
deriving DecidableEq

/-- Time base sanity clamp (lines 278-279): denominators above 10000 are
replaced by 1000. -/
def clamp_timebase (tb : Nat) : Nat :=
  if tb > 10000 then 1000 else tb

/-- Body of the per-chapter try block (lines 269-280), in Python evaluation
order: names.append(aChap['tags']['title']) first (KeyError aborts),
performers.append(performer), then int(aChap['end']) (KeyError aborts,
ValueError is caught and skips the rest of this chapter, leaving the earlier
appends in place), then int(aChap['start']) likewise, then the time_base
denominator with the clamp.  A caught ValueError yields the partial state. -/
def extract_chapter (performer : String) (st : ExtractState) (ch : RawChapter) :
    Except String ExtractState :=
  match ch.title with
  | none => .error "KeyError: title"
  | some nm =>
    let st1 : ExtractState :=
      { st with names := st.names ++ [nm], performers := st.performers ++ [performer] }
    match ch.end_ with
    | .missing => .error "KeyError: end"
    | .malformed => .ok st1
    | .val e =>
      match ch.start with
      | .missing => .error "KeyError: start"
      | .malformed => .ok st1
      | .val s =>
        let st2 : ExtractState := { st1 with track_times := st1.track_times ++ [e - s] }
        match ch.time_base_den with
        | .missing => .error "KeyError: time_base"
        | .malformed => .ok st2
        | .val d => .ok { st2 with timebases := st2.timebases ++ [clamp_timebase d] }

/-- The for-loop over get_chapters (line 268): chapters processed in order,
an uncaught exception aborting the whole run. -/
def extract_chapters (performer : String) (st : ExtractState) :
    List RawChapter → Except String ExtractState
  | [] => .ok st
  | ch :: rest =>
    match extract_chapter performer st ch with
    | .error e => .error e
    | .ok st' => extract_chapters performer st' rest

/-- FILE_LINE_OGA (line 245): the oga file always has extension .oga, so the
upper-cased extension tag is the literal OGA. -/
def file_line_oga (oga_base : String) : String :=
  "FILE \"" ++ oga_base ++ "\" OGA\n"

/-- Python text-mode line iteration over a string: split after every newline
character, keeping it; a final fragment without a newline is its own line;
an empty file has no lines. -/
def split_lines_aux : List Char → List Char → List String
  | [], [] => []
  | [], acc => [String.mk acc.reverse]
  | c :: cs, acc =>
    if c = '\n' then String.mk (c :: acc).reverse :: split_lines_aux cs []
    else split_lines_aux cs (c :: acc)

/-- Lines of a file's contents, in order. -/
def split_lines (s : String) : List String :=
  split_lines_aux s.data []

/-- Python str.startswith. -/
def str_startswith (s pre : String) : Bool :=
  s.data.take pre.data.length == pre.data

/-- The scan of an existing cue file (lines 250-261).  State: REPLACE_CUE
(initially true) and CUE_CONTENTS (initially empty).  A line equal to
FILE_LINE_OGA sets REPLACE_CUE and breaks; any other line starting with
FILE sets REPLACE_CUE to false and continues; every remaining line is
appended to CUE_CONTENTS.  Returns the final (REPLACE_CUE, CUE_CONTENTS). -/
def scan_cue_lines (file_line : String) : List String → Bool → String → Bool × String
  | [], replace, contents => (replace, contents)
  | line :: rest, replace, contents =>
    if line = file_line then (true, contents)
    else if str_startswith line "FILE " then scan_cue_lines file_line rest false contents
    else scan_cue_lines file_line rest replace (contents ++ line)

/-- The final cue file as written (lines 288-293): PERFORMER line, TITLE
line, FILE_LINE_OGA, then the body string. -/
def render_cue_file (performer title oga_base body : String) : String :=
  "PERFORMER \"" ++ performer ++ "\"\n" ++ "TITLE \"" ++ title ++ "\"\n" ++
    file_line_oga oga_base ++ body

/-- Per-file inputs of the main loop once metadata is resolved: the book_info
results, the basename of the oga output, and the three extracted chapter
lists fed to create_cue_sheet. -/
structure PipelineInput where
  performer : String
  title : String
  oga_base : String
  names : List String
  track_times : List Nat
  timebases : List Nat

/-- The on-disk state the main loop reads and writes for one input file:
whether the .oga output exists, and the contents of the canonical
basename.cue path and of the basename_oga.cue side path (none = absent). -/
structure FileState where
  oga_exists : Bool
  canonical_cue : Option String
  side_cue : Option String
deriving DecidableEq

/-- CUE_CONTENTS in the REPLACE case (lines 284-286): the empty-separator
join of the generated entries. -/
def fresh_body (inp : PipelineInput) : String :=
  String.join (create_cue_sheet inp.names inp.track_times inp.timebases 0)

/-- One iteration of the main per-file loop (lines 209-293) restricted to the
observable effects the claims are about: the transcoder is invoked only when
the .oga file is absent (lines 213-214); if a canonical cue file exists it is
scanned and, when REPLACE_CUE ends up false, the write target becomes the
side path (lines 249-264); the REPLACE case recomputes the body from the
chapters, the preserve case keeps the retained CUE_CONTENTS of the scan
(lines 266-286); the header lines and the body are then written to the
chosen path (lines 288-293).  Returns the new state and whether the
transcoder was invoked. -/
def run_pipeline (inp : PipelineInput) (fs : FileState) : FileState × Bool :=
  let invoked := !fs.oga_exists
  let fl := file_line_oga inp.oga_base
  let decision :=
    match fs.canonical_cue with
    | none => (true, "")
    | some content => scan_cue_lines fl (split_lines content) true ""
  if decision.1 then
    ({ fs with oga_exists := true,
               canonical_cue :=
                 some (render_cue_file inp.performer inp.title inp.oga_base (fresh_body inp)) },
      invoked)
  else
    ({ fs with oga_exists := true,
               side_cue :=
                 some (render_cue_file inp.performer inp.title inp.oga_base decision.2) },
      invoked)

instance {ε α : Type} [DecidableEq ε] [DecidableEq α] : DecidableEq (Except ε α) := fun a b =>
  match a, b with
  | .ok x, .ok y =>
    if h : x = y then isTrue (by rw [h]) else isFalse (fun he => by cases he; exact h rfl)
  | .error x, .error y =>
    if h : x = y then isTrue (by rw [h]) else isFalse (fun he => by cases he; exact h rfl)
  | .ok _, .error _ => isFalse (fun he => by cases he)
  | .error _, .ok _ => isFalse (fun he => by cases he)

/-- Concrete per-file input used to exercise the preserve branch: one chapter
named A of 10 time-base units. -/
def c1_inp : PipelineInput :=
  { performer := "P", title := "T", oga_base := "book.oga",
    names := ["A"], track_times := [10], timebases := [1000] }

/-- Concrete on-disk state with a canonical cue file whose FILE line names a
different audio file, followed by one body line. -/
def c1_fs : FileState :=
  { oga_exists := true,
    canonical_cue := some "FILE \"other.oga\" OGA\nOLD BODY LINE\n",
    side_cue := none }

/-- Chapter record whose start field is not parseable by int(). -/
def c3_chapter_bad_start : RawChapter :=
  { title := some "Chapter A", start := ProbeField.malformed,
    end_ := ProbeField.val 10, time_base_den := ProbeField.val 1000 }

/-- Well-formed chapter record. -/
def c3_chapter_good : RawChapter :=
  { title := some "Chapter B", start := ProbeField.val 0,
    end_ := ProbeField.val 10, time_base_den := ProbeField.val 1000 }

/-- Chapter record with no end key at all. -/
def c3_chapter_missing_end : RawChapter :=
  { title := some "Chapter C", start := ProbeField.val 0,
    end_ := ProbeField.missing, time_base_den := ProbeField.val 1000 }

/-- The empty accumulator lists at the top of each per-file iteration. -/
def empty_extract : ExtractState :=
  { names := [], performers := [], track_times := [], timebases := [] }

/-- Freshly generated two-track cue body: chapters A and B, one minute each
at time base 1000. -/
def c5_two_track_body : String :=
  String.join (create_cue_sheet ["A", "B"] [60000, 60000] [1000, 1000] 0)

/-- Concrete per-file input shared by the merge-policy examples. -/
def c7_inp : PipelineInput :=
  { performer := "P", title := "T", oga_base := "book.oga",
    names := ["A"], track_times := [60000], timebases := [1000] }

/-- Existing canonical cue file containing the exactly matching FILE line. -/
def c7_fs_match : FileState :=
  { oga_exists := true,
    canonical_cue := some "PERFORMER \"x\"\nFILE \"book.oga\" OGA\n  TRACK 00 AUDIO\n",
    side_cue := none }

/-- Existing canonical cue file containing only a non-matching FILE line. -/
def c7_fs_mismatch : FileState :=
  { oga_exists := true,
    canonical_cue := some "FILE \"other.oga\" OGA\nBODY\n",
    side_cue := none }

/-- Concrete per-file input for the idempotence example. -/
def c8_inp : PipelineInput :=
  { performer := "Auth", title := "Book", oga_base := "book.oga",
    names := ["A", "B"], track_times := [60000, 60000], timebases := [1000, 1000] }

/-- Fresh on-disk state: nothing converted yet, no cue files. -/
def c8_fs : FileState :=
  { oga_exists := false, canonical_cue := none, side_cue := none }

/-- Concrete per-file input for the late-match example. -/
def c10_inp : PipelineInput :=
  { performer := "P", title := "T", oga_base := "book.oga",
    names := ["A"], track_times := [60000], timebases := [1000] }

/-- Existing canonical cue file with a non-matching FILE line first and the
exactly matching FILE line on a later line. -/
def c10_fs : FileState :=
  { oga_exists := true,
    canonical_cue := some "FILE \"other.oga\" OGA\nFILE \"book.oga\" OGA\n",
    side_cue := none }

/-! Helper lemmas about strings, line splitting, the cue-file scan, and
timestamp monotonicity. -/

theorem string_data_append (a b : String) : (a ++ b).data = a.data ++ b.data := by
  cases a
  cases b
  rfl

theorem string_append_mk (a b : String) : a ++ b = String.mk (a.data ++ b.data) := by
  cases a
  cases b
  rfl

theorem split_lines_aux_line (xs : List Char) (rest : List Char) (acc : List Char)
    (h : ('\n' : Char) ∉ xs) :
    split_lines_aux (xs ++ '\n' :: rest) acc =
      String.mk (acc.reverse ++ xs ++ ['\n']) :: split_lines_aux rest [] := by
  induction xs generalizing acc with
  | nil => simp [split_lines_aux]
  | cons x xs ih =>
    have hx : x ≠ '\n' := by
      intro hx
      exact h (hx ▸ List.mem_cons_self x xs)
    have h' : ('\n' : Char) ∉ xs := fun hm => h (List.mem_cons_of_mem x hm)
    simp only [List.cons_append, split_lines_aux, if_neg hx, List.append_eq]
    rw [ih _ h']
    simp

theorem performer_line_not_file (p : String) :
    str_startswith ("PERFORMER \"" ++ p ++ "\"\n") "FILE " = false := by
  cases p
  rfl

theorem title_line_not_file (t : String) :
    str_startswith ("TITLE \"" ++ t ++ "\"\n") "FILE " = false := by
  cases t
  rfl

theorem file_line_starts (base : String) :
    str_startswith (file_line_oga base) "FILE " = true := by
  cases base
  rfl

theorem data_quote_nl : ("\"\n" : String).data = ['\"', '\n'] := rfl

theorem data_oga_nl : ("\" OGA\n" : String).data = "\" OGA".data ++ ['\n'] := rfl

theorem split_render (p t base body : String)
    (hp : ('\n' : Char) ∉ p.data) (ht : ('\n' : Char) ∉ t.data)
    (hb : ('\n' : Char) ∉ base.data) :
    split_lines (render_cue_file p t base body) =
      ("PERFORMER \"" ++ p ++ "\"\n") :: ("TITLE \"" ++ t ++ "\"\n") ::
        file_line_oga base :: split_lines body := by
  have hform : (render_cue_file p t base body).data =
      ("PERFORMER \"".data ++ p.data ++ ['\"']) ++ '\n' ::
        (("TITLE \"".data ++ t.data ++ ['\"']) ++ '\n' ::
          (("FILE \"".data ++ base.data ++ "\" OGA".data) ++ '\n' :: body.data)) := by
    cases p
    cases t
    cases base
    cases body
    simp [render_cue_file, file_line_oga, string_data_append]
  have h1 : ('\n' : Char) ∉ ("PERFORMER \"".data ++ p.data ++ ['\"']) := by
    intro hmem
    rcases List.mem_append.mp hmem with hmem' | hmem'
    · rcases List.mem_append.mp hmem' with hmem'' | hmem''
      · exact absurd hmem'' (by decide)
      · exact hp hmem''
    · exact absurd hmem' (by decide)
  have h2 : ('\n' : Char) ∉ ("TITLE \"".data ++ t.data ++ ['\"']) := by
    intro hmem
    rcases List.mem_append.mp hmem with hmem' | hmem'
    · rcases List.mem_append.mp hmem' with hmem'' | hmem''
      · exact absurd hmem'' (by decide)
      · exact ht hmem''
    · exact absurd hmem' (by decide)
  have h3 : ('\n' : Char) ∉ ("FILE \"".data ++ base.data ++ "\" OGA".data) := by
    intro hmem
    rcases List.mem_append.mp hmem with hmem' | hmem'
    · rcases List.mem_append.mp hmem' with hmem'' | hmem''
      · exact absurd hmem'' (by decide)
      · exact hb hmem''
    · exact absurd hmem' (by decide)
  unfold split_lines
  rw [hform, split_lines_aux_line _ _ _ h1, split_lines_aux_line _ _ _ h2,
    split_lines_aux_line _ _ _ h3]
  refine congrArg₂ _ ?_ (congrArg₂ _ ?_ (congrArg₂ _ ?_ rfl))
  · rw [string_append_mk ("PERFORMER \"" ++ p) "\"\n", string_data_append, data_quote_nl]
    simp
  · rw [string_append_mk ("TITLE \"" ++ t) "\"\n", string_data_append, data_quote_nl]
    simp
  · unfold file_line_oga
    rw [string_append_mk ("FILE \"" ++ base) "\" OGA\n", string_data_append, data_oga_nl]
    simp

theorem scan_cue_mem (fl : String) (lines : List String) (h : fl ∈ lines) :
    ∀ b c, (scan_cue_lines fl lines b c).1 = true := by
  induction lines with
  | nil => cases h
  | cons l rest ih =>
    intro b c
    by_cases hl : l = fl
    · simp [scan_cue_lines, hl]
    · have h' : fl ∈ rest := by
        rcases List.mem_cons.mp h with h1 | h2
        · exact absurd h1.symm hl
        · exact h2
      by_cases hs : str_startswith l "FILE " = true
      · simp only [scan_cue_lines, if_neg hl, hs, if_true]
        exact ih h' false c
      · simp only [scan_cue_lines, if_neg hl, Bool.not_eq_true] at hs ⊢
        simp only [hs, if_false, Bool.false_eq_true]
        exact ih h' b (c ++ l)

theorem scan_cue_stays_false (fl : String) (lines : List String) (h : fl ∉ lines) :
    ∀ c, (scan_cue_lines fl lines false c).1 = false := by
  induction lines with
  | nil => intro c; rfl
  | cons l rest ih =>
    intro c
    have hl : l ≠ fl := fun he => h (he ▸ List.mem_cons_self l rest)
    have h' : fl ∉ rest := fun hm => h (List.mem_cons_of_mem l hm)
    by_cases hs : str_startswith l "FILE " = true
    · simp only [scan_cue_lines, if_neg hl, hs, if_true]
      exact ih h' c
    · simp only [Bool.not_eq_true] at hs
      simp only [scan_cue_lines, if_neg hl, hs, Bool.false_eq_true, if_false]
      exact ih h' (c ++ l)

theorem scan_cue_no_match (fl : String) (lines : List String) (h : fl ∉ lines)
    (hex : ∃ l ∈ lines, str_startswith l "FILE " = true) :
    ∀ c, (scan_cue_lines fl lines true c).1 = false := by
  induction lines with
  | nil =>
    rcases hex with ⟨l, hl, _⟩
    cases hl
  | cons l rest ih =>
    intro c
    have hl : l ≠ fl := fun he => h (he ▸ List.mem_cons_self l rest)
    have h' : fl ∉ rest := fun hm => h (List.mem_cons_of_mem l hm)
    by_cases hs : str_startswith l "FILE " = true
    · simp only [scan_cue_lines, if_neg hl, hs, if_true]
      exact scan_cue_stays_false fl rest h' c
    · have hex' : ∃ x ∈ rest, str_startswith x "FILE " = true := by
        rcases hex with ⟨w, hw, hws⟩
        rcases List.mem_cons.mp hw with h1 | h2
        · exact absurd (h1 ▸ hws) hs
        · exact ⟨w, h2, hws⟩
      simp only [Bool.not_eq_true] at hs
      simp only [scan_cue_lines, if_neg hl, hs, Bool.false_eq_true, if_false]
      exact ih h' hex' (c ++ l)

theorem scan_hits_third (fl l1 l2 : String) (rest : List String)
    (h1 : str_startswith l1 "FILE " = false) (h1ne : l1 ≠ fl)
    (h2 : str_startswith l2 "FILE " = false) (h2ne : l2 ≠ fl) :
    (scan_cue_lines fl (l1 :: l2 :: fl :: rest) true "").1 = true := by
  simp [scan_cue_lines, if_neg h1ne, h1, if_neg h2ne, h2]

theorem cue_timestamp_mono (tb t t' : Nat) (h : t ≤ t') :
    ts_le (cue_timestamp t tb) (cue_timestamp t' tb) := by
  unfold ts_le cue_timestamp
  rcases Nat.lt_or_ge (t / (tb * 60)) (t' / (tb * 60)) with hlt | hge
  · exact Or.inl hlt
  · have hm : t / (tb * 60) ≤ t' / (tb * 60) := Nat.div_le_div_right h
    have hq : t / (tb * 60) = t' / (tb * 60) := Nat.le_antisymm hm hge
    have hr : t % (tb * 60) ≤ t' % (tb * 60) := by
      have h1 := Nat.div_add_mod t (tb * 60)
      have h2 := Nat.div_add_mod t' (tb * 60)
      rw [← hq] at h2
      generalize hk : tb * 60 * (t / (tb * 60)) = k at h1 h2
      generalize hr1 : t % (tb * 60) = r at h1
      generalize hr2 : t' % (tb * 60) = r' at h2
      omega
    refine Or.inr ⟨hq, ?_⟩
    rcases Nat.lt_or_ge (t % (tb * 60) / tb) (t' % (tb * 60) / tb) with hslt | hsge
    · exact Or.inl hslt
    · have hsm : t % (tb * 60) / tb ≤ t' % (tb * 60) / tb := Nat.div_le_div_right hr
      have hs : t % (tb * 60) / tb = t' % (tb * 60) / tb := Nat.le_antisymm hsm hsge
      have hrr : t % (tb * 60) % tb ≤ t' % (tb * 60) % tb := by
        have h1 := Nat.div_add_mod (t % (tb * 60)) tb
        have h2 := Nat.div_add_mod (t' % (tb * 60)) tb
        rw [← hs] at h2
        generalize hk : tb * (t % (tb * 60) / tb) = k at h1 h2
        generalize hr1 : t % (tb * 60) % tb = r at h1
        generalize hr2 : t' % (tb * 60) % tb = r' at h2
        omega
      exact Or.inr ⟨hs, Nat.div_le_div_right (Nat.mul_le_mul_right 75 hrr)⟩

theorem cue_timestamps_chain (tb : Nat) : ∀ (durs tbs : List Nat),
    (∀ x ∈ tbs, x = tb) → ∀ t, List.Chain' ts_le (cue_timestamps durs tbs t) := by
  intro durs
  induction durs with
  | nil =>
    intro tbs htb t
    cases tbs <;> simp [cue_timestamps]
  | cons d durs ih =>
    intro tbs htb t
    cases tbs with
    | nil => simp [cue_timestamps]
    | cons tb1 tbs =>
      have h1 : tb1 = tb := htb tb1 (List.mem_cons_self _ _)
      have hrest : ∀ x ∈ tbs, x = tb := fun x hx => htb x (List.mem_cons_of_mem _ hx)
      subst h1
      simp only [cue_timestamps]
      apply List.chain'_cons'.mpr
      constructor
      · intro y hy
        cases durs with
        | nil => simp [cue_timestamps] at hy
        | cons d2 durs2 =>
          cases tbs with
          | nil => simp [cue_timestamps] at hy
          | cons tb2 tbs2 =>
            have h2 : tb2 = tb1 := hrest tb2 (List.mem_cons_self _ _)
            simp only [cue_timestamps, List.head?, Option.mem_def, Option.some.injEq] at hy
            rw [← hy, h2]
            exact cue_timestamp_mono tb1 t (t + d) (Nat.le_add_right t d)
      · exact ih tbs hrest (t + d)

/-! Claim theorems. -/

/-- C1 counterexample: with an existing canonical cue file whose FILE line
does not match, the file written to the side path carries the retained line
OLD BODY LINE of the existing file as its body, and that output differs from
the freshly computed cue sheet for the container's chapters, refuting the
claim that the side path receives the freshly computed sheet and that
retained non-FILE lines are never used. -/
theorem cue_preserve_fresh_counterexample :
    (run_pipeline c1_inp c1_fs).1.side_cue =
        some "PERFORMER \"P\"\nTITLE \"T\"\nFILE \"book.oga\" OGA\nOLD BODY LINE\n" ∧
      "PERFORMER \"P\"\nTITLE \"T\"\nFILE \"book.oga\" OGA\nOLD BODY LINE\n" ≠
        render_cue_file "P" "T" "book.oga" (fresh_body c1_inp) := by
  constructor
  · decide
  · decide

/-- C1 (amended): when the scan of the existing canonical cue file ends with
REPLACE_CUE false, the program writes to the side path a file made of fresh
PERFORMER, TITLE and FILE header lines followed by the retained non-FILE
lines of the existing file; the chapter body is not recomputed, and the
canonical path is left unchanged. -/
theorem cue_preserve_writes_retained_lines (inp : PipelineInput) (fs : FileState)
    (content retained : String)
    (hc : fs.canonical_cue = some content)
    (hscan : scan_cue_lines (file_line_oga inp.oga_base) (split_lines content) true "" =
      (false, retained)) :
    (run_pipeline inp fs).1.side_cue =
        some (render_cue_file inp.performer inp.title inp.oga_base retained) ∧
      (run_pipeline inp fs).1.canonical_cue = fs.canonical_cue := by
  simp [run_pipeline, hc, hscan]

/-- Witness for the amended C1 theorem at the concrete preserve example. -/
theorem cue_preserve_writes_retained_lines_witness :
    (run_pipeline c1_inp c1_fs).1.side_cue =
        some (render_cue_file "P" "T" "book.oga" "OLD BODY LINE\n") ∧
      (run_pipeline c1_inp c1_fs).1.canonical_cue = c1_fs.canonical_cue :=
  cue_preserve_writes_retained_lines c1_inp c1_fs
    "FILE \"other.oga\" OGA\nOLD BODY LINE\n" "OLD BODY LINE\n" rfl (by decide)

/-- C2 counterexample: with non-negative durations 100, 0, 0 and positive
(clamp-invariant) time bases 1, 1, 1000, the emitted timestamps are
(0,0,0), (1,40,0), (0,0,7): the third is lexicographically below the second,
so the sequence is not monotonically non-decreasing. -/
theorem cue_timestamps_monotone_counterexample :
    cue_timestamps [100, 0, 0] [1, 1, 1000] 0 = [(0, 0, 0), (1, 40, 0), (0, 0, 7)] ∧
      ¬ ts_le (1, 40, 0) (0, 0, 7) ∧
      (∀ x ∈ [1, 1, 1000], 0 < x) ∧
      List.map clamp_timebase [1, 1, 1000] = [1, 1, 1000] := by
  refine ⟨by decide, by decide, by decide, by decide⟩

/-- C2 (amended): for every chapter sequence with non-negative durations and
one common positive time base for all tracks, the (minutes, seconds, frames)
timestamps emitted by the timing engine are lexicographically non-decreasing
between consecutive tracks; with differing per-track time bases monotonicity
can fail, because the global accumulator is reinterpreted in each track's own
unit. -/
theorem cue_timestamps_monotone_const_timebase (durs tbs : List Nat) (tb : Nat)
    (_hpos : 0 < tb) (htb : ∀ x ∈ tbs, x = tb) (start : Nat) :
    List.Chain' ts_le (cue_timestamps durs tbs start) :=
  cue_timestamps_chain tb durs tbs htb start

/-- Witness for the amended C2 theorem at a concrete three-track input. -/
theorem cue_timestamps_monotone_const_timebase_witness :
    List.Chain' ts_le (cue_timestamps [90500, 30000, 0] [1000, 1000, 1000] 0) :=
  cue_timestamps_monotone_const_timebase [90500, 30000, 0] [1000, 1000, 1000] 1000
    (by decide) (by decide) 0

/-- C3 (code bug, evaluated): a chapter with an unparseable start field has
its title appended before the parse fails, so the accumulator lists desync:
the surviving zip pairs the skipped chapter's title Chapter A with the good
chapter's duration 10, and Chapter B gets no entry of its own; a chapter with
a missing end key raises an uncaught KeyError instead of being skipped. -/
theorem chapter_parse_error_misaligns_tracks :
    extract_chapters "Narrator" empty_extract [c3_chapter_bad_start, c3_chapter_good] =
        Except.ok { names := ["Chapter A", "Chapter B"],
                    performers := ["Narrator", "Narrator"],
                    track_times := [10], timebases := [1000] } ∧
      create_cue_sheet ["Chapter A", "Chapter B"] [10] [1000] 0 =
        ["  TRACK 00 AUDIO\n    TITLE \"Chapter A\"\n    INDEX 01 00:00:00"] ∧
      extract_chapters "Narrator" empty_extract [c3_chapter_missing_end] =
        Except.error "KeyError: end" := by
  refine ⟨by decide, by decide, by decide⟩

/-- C4 (code bug, evaluated): with no artist-like key at all, the fallback
chain reaches tags['performer'], whose KeyError is not caught by the
ValueError handler, so book_info raises instead of returning the empty
string; the earlier links of the chain and the title fallback work. -/
theorem book_info_keyerror_on_missing_artist :
    book_info [] "MyBook" = Except.error "KeyError: performer" ∧
      book_info [("Album", "The Title")] "MyBook" = Except.error "KeyError: performer" ∧
      book_info [("performer", "Reader")] "MyBook" = Except.ok ("Reader", "MyBook") ∧
      book_info [("ARTIST", "Auth"), ("album", "T")] "MyBook" = Except.ok ("Auth", "T") := by
  refine ⟨by decide, by decide, by decide, by decide⟩

/-- C5 (code bug, evaluated): the generated entries are joined with the empty
separator and each entry template ends without a newline, so in a two-track
cue file the second TRACK header is appended to the first track's INDEX line
instead of starting its own line. -/
theorem cue_entries_joined_without_newline :
    split_lines (render_cue_file "Auth" "Book" "book.oga" c5_two_track_body) =
      ["PERFORMER \"Auth\"\n", "TITLE \"Book\"\n", "FILE \"book.oga\" OGA\n",
       "  TRACK 00 AUDIO\n", "    TITLE \"A\"\n",
       "    INDEX 01 00:00:00  TRACK 01 AUDIO\n", "    TITLE \"B\"\n",
       "    INDEX 01 01:00:00"] := by
  decide

/-- C6: with time base 1000 and a first chapter of duration 90500 units, the
second track's timestamp is minutes 1, seconds 30, frames 37, for any
duration of the second chapter. -/
theorem second_track_timestamp_90500 (d2 : Nat) :
    cue_timestamps [90500, d2] [1000, 1000] 0 = [(0, 0, 0), (1, 30, 37)] := rfl

/-- C9: for a fully parseable chapter the extraction appends exactly the
reported time_base denominator when it is at most 10000 and 1000 when it
exceeds 10000, and in particular the clamp maps 48000 to 1000. -/
theorem timebase_clamp_in_extraction (p nm : String) (s e : Int) (d : Nat)
    (st : ExtractState) :
    extract_chapter p st
        { title := some nm, start := ProbeField.val s, end_ := ProbeField.val e,
          time_base_den := ProbeField.val d } =
      Except.ok { names := st.names ++ [nm], performers := st.performers ++ [p],
                  track_times := st.track_times ++ [e - s],
                  timebases := st.timebases ++ [if 10000 < d then 1000 else d] } ∧
      clamp_timebase 48000 = 1000 :=
  ⟨rfl, rfl⟩

/-- C7: when the existing canonical cue file contains a line exactly equal to
the computed FILE line, the canonical path is overwritten with the freshly
computed cue sheet and the side path is untouched; when it contains a FILE
line but none equal to the computed one, the canonical file's contents are
left unchanged and the output goes to the side path. -/
theorem cue_merge_policy_replace_or_preserve (inp : PipelineInput) (fs : FileState)
    (content : String) (hc : fs.canonical_cue = some content) :
    (file_line_oga inp.oga_base ∈ split_lines content →
      (run_pipeline inp fs).1.canonical_cue =
          some (render_cue_file inp.performer inp.title inp.oga_base (fresh_body inp)) ∧
        (run_pipeline inp fs).1.side_cue = fs.side_cue) ∧
    ((file_line_oga inp.oga_base ∉ split_lines content ∧
        ∃ l ∈ split_lines content, str_startswith l "FILE " = true) →
      (run_pipeline inp fs).1.canonical_cue = fs.canonical_cue ∧
        ∃ s, (run_pipeline inp fs).1.side_cue = some s) := by
  constructor
  · intro hmem
    have hscan := scan_cue_mem (file_line_oga inp.oga_base) (split_lines content) hmem true ""
    simp [run_pipeline, hc, hscan]
  · rintro ⟨hnot, hex⟩
    have hscan := scan_cue_no_match (file_line_oga inp.oga_base) (split_lines content) hnot hex ""
    simp [run_pipeline, hc, hscan]

/-- Witness for the C7 theorem: both branches exercised at concrete states. -/
theorem cue_merge_policy_replace_or_preserve_witness :
    ((run_pipeline c7_inp c7_fs_match).1.canonical_cue =
        some (render_cue_file "P" "T" "book.oga" (fresh_body c7_inp)) ∧
      (run_pipeline c7_inp c7_fs_match).1.side_cue = c7_fs_match.side_cue) ∧
    ((run_pipeline c7_inp c7_fs_mismatch).1.canonical_cue = c7_fs_mismatch.canonical_cue ∧
      ∃ s, (run_pipeline c7_inp c7_fs_mismatch).1.side_cue = some s) :=
  ⟨(cue_merge_policy_replace_or_preserve c7_inp c7_fs_match
      "PERFORMER \"x\"\nFILE \"book.oga\" OGA\n  TRACK 00 AUDIO\n" rfl).1 (by decide),
   (cue_merge_policy_replace_or_preserve c7_inp c7_fs_mismatch
      "FILE \"other.oga\" OGA\nBODY\n" rfl).2 (by decide)⟩

/-- C8: a second pipeline run on the state left by a first run that started
with no pre-existing canonical cue file does not invoke the transcoder (the
.oga file now exists), rewrites the canonical path with byte-identical
contents, and leaves the side path alone; the header strings are assumed
newline-free so that the written file's line structure is the rendered one. -/
theorem pipeline_second_run_idempotent (inp : PipelineInput) (fs0 : FileState)
    (hp : ('\n' : Char) ∉ inp.performer.data)
    (ht : ('\n' : Char) ∉ inp.title.data)
    (hb : ('\n' : Char) ∉ inp.oga_base.data)
    (h0 : fs0.canonical_cue = none) :
    (run_pipeline inp (run_pipeline inp fs0).1).2 = false ∧
      (run_pipeline inp (run_pipeline inp fs0).1).1.canonical_cue =
        (run_pipeline inp fs0).1.canonical_cue ∧
      (run_pipeline inp (run_pipeline inp fs0).1).1.side_cue =
        (run_pipeline inp fs0).1.side_cue ∧
      (run_pipeline inp (run_pipeline inp fs0).1).1.canonical_cue =
        some (render_cue_file inp.performer inp.title inp.oga_base (fresh_body inp)) := by
  have hs1 : (run_pipeline inp fs0).1 =
      { fs0 with oga_exists := true,
                 canonical_cue :=
                   some (render_cue_file inp.performer inp.title inp.oga_base (fresh_body inp)) } := by
    simp [run_pipeline, h0]
  have hsplit := split_render inp.performer inp.title inp.oga_base (fresh_body inp) hp ht hb
  have hne1 : ("PERFORMER \"" ++ inp.performer ++ "\"\n") ≠ file_line_oga inp.oga_base := by
    intro he
    have hcontr := performer_line_not_file inp.performer
    rw [he, file_line_starts inp.oga_base] at hcontr
    exact Bool.noConfusion hcontr
  have hne2 : ("TITLE \"" ++ inp.title ++ "\"\n") ≠ file_line_oga inp.oga_base := by
    intro he
    have hcontr := title_line_not_file inp.title
    rw [he, file_line_starts inp.oga_base] at hcontr
    exact Bool.noConfusion hcontr
  have hscan : (scan_cue_lines (file_line_oga inp.oga_base)
      (split_lines (render_cue_file inp.performer inp.title inp.oga_base (fresh_body inp)))
      true "").1 = true := by
    rw [hsplit]
    exact scan_hits_third _ _ _ _ (performer_line_not_file _) hne1 (title_line_not_file _) hne2
  rw [hs1]
  refine ⟨?_, ?_, ?_, ?_⟩ <;> simp [run_pipeline, hscan]

/-- Witness for the C8 theorem at a concrete fresh two-chapter input. -/
theorem pipeline_second_run_idempotent_witness :
    (run_pipeline c8_inp (run_pipeline c8_inp c8_fs).1).2 = false ∧
      (run_pipeline c8_inp (run_pipeline c8_inp c8_fs).1).1.canonical_cue =
        (run_pipeline c8_inp c8_fs).1.canonical_cue ∧
      (run_pipeline c8_inp (run_pipeline c8_inp c8_fs).1).1.side_cue =
        (run_pipeline c8_inp c8_fs).1.side_cue ∧
      (run_pipeline c8_inp (run_pipeline c8_inp c8_fs).1).1.canonical_cue =
        some (render_cue_file "Auth" "Book" "book.oga" (fresh_body c8_inp)) :=
  pipeline_second_run_idempotent c8_inp c8_fs (by decide) (by decide) (by decide) rfl

/-- C10: when the existing cue file has a non-matching FILE line on an
earlier line and the exactly matching FILE line later, the scan's break on
the match leaves REPLACE in force: the canonical path is overwritten with
the freshly computed sheet and no side file is written. -/
theorem late_file_match_forces_replace (inp : PipelineInput) (fs : FileState)
    (content : String) (pre post : List String) (l : String)
    (hc : fs.canonical_cue = some content)
    (hsplit : split_lines content = pre ++ l :: post)
    (_hl : str_startswith l "FILE " = true)
    (_hne : l ≠ file_line_oga inp.oga_base)
    (hmem : file_line_oga inp.oga_base ∈ post) :
    (run_pipeline inp fs).1.canonical_cue =
        some (render_cue_file inp.performer inp.title inp.oga_base (fresh_body inp)) ∧
      (run_pipeline inp fs).1.side_cue = fs.side_cue := by
  have hmem' : file_line_oga inp.oga_base ∈ split_lines content := by
    rw [hsplit]
    exact List.mem_append.mpr (Or.inr (List.mem_cons_of_mem _ hmem))
  have hscan := scan_cue_mem (file_line_oga inp.oga_base) (split_lines content) hmem' true ""
  simp [run_pipeline, hc, hscan]

/-- Witness for the C10 theorem at the concrete two-FILE-line example. -/
theorem late_file_match_forces_replace_witness :
    (run_pipeline c10_inp c10_fs).1.canonical_cue =
        some (render_cue_file "P" "T" "book.oga" (fresh_body c10_inp)) ∧
      (run_pipeline c10_inp c10_fs).1.side_cue = c10_fs.side_cue :=
  late_file_match_forces_replace c10_inp c10_fs
    "FILE \"other.oga\" OGA\nFILE \"book.oga\" OGA\n"
    [] ["FILE \"book.oga\" OGA\n"] "FILE \"other.oga\" OGA\n"
    rfl (by decide) (by decide) (by decide) (by decide)
